import Mathlib

/-!
Verification of the safe-tee repository: a coordinated tee for Web Streams
ReadableStream objects.  The repository contains three variants of the `tee`
function:

* the configured variant (src/unnamed/part_001, second document): validates an
  optional `maxChunkDifference` bound, calls the platform primitive
  `stream.tee()`, and pipes each raw branch through a `TransformStream` whose
  `transform` callback suspends a leg whose forwarded-chunk counter is strictly
  greater than the sibling counter plus the bound, registering a single wake
  callback that the sibling invokes and clears after its own forward step;
* the variant at src/index.js, which hard-codes `MAX_CHUNK_DIFFERENCE = 1`,
  uses a `>=` suspend check, and declares both chunk counters with `const`,
  so the `chunkCount++` statement inside each transform throws a `TypeError`
  (assignment to a constant variable, ES modules run in strict mode);
* the trivial variant (src/unnamed/part_001, third document), which only
  checks `instanceof ReadableStream` and returns `stream.tee()` unchanged.

The development embeds the synchronous front matter of each variant over a
small JavaScript value model, and embeds the coordination protocol of the
configured variant as a small-step transition system driven by an explicit
schedule of events (transform invocations, resumptions of woken transforms,
and cancellations).  The wake slot of each leg is instrumented with a ghost
identifier and a ghost log of invoked wakes; the ghost fields do not influence
the dynamics and serve only to state the single-resumption invariants.
-/

namespace SafeTee

/-! ### JavaScript value model for the synchronous front matter -/

/-- A JavaScript number: not-a-number, the two infinities, or a finite value
(modelled as a rational). -/
inductive JsNum where
  | nan
  | posInf
  | negInf
  | fin (q : ℚ)
deriving DecidableEq

/-- The errors thrown synchronously by the tee variants. -/
inductive JsErr where
  | typeError (msg : String)
deriving DecidableEq

/-- The JavaScript values relevant to the argument checks of `tee`: numbers,
strings, booleans, a plain object, `null`, `undefined`, and a
`ReadableStream` carrying the ordered sequence of chunks its source emits. -/
inductive JsVal where
  | num (n : JsNum)
  | str (s : String)
  | boolean (b : Bool)
  | plainObject
  | jsNull
  | undef
  | readableStream (chunks : List String)
deriving DecidableEq

/-- The `stream instanceof ReadableStream` test. -/
def isReadableStream : JsVal → Bool
  | .readableStream _ => true
  | _ => false

/-- The chunk sequence emitted by a stream value (meaningful only on
`readableStream`). -/
def streamChunks : JsVal → List String
  | .readableStream cs => cs
  | _ => []

/-- The `typeof v === "number"` test. -/
def jsTypeofIsNumber : JsVal → Bool
  | .num _ => true
  | _ => false

/-- The JavaScript comparison `n < 0` on a number: false for NaN, true for
negative infinity and negative finite values. -/
def jsNumLtZero : JsNum → Bool
  | .nan => false
  | .posInf => false
  | .negInf => true
  | .fin q => decide (q < 0)

/-- The `isNaN(n)` test on a number. -/
def jsIsNaN : JsNum → Bool
  | .nan => true
  | _ => false

/-- The guard `typeof v !== "number" || v < 0 || isNaN(v)` from the configured
tee variant, with the `||` short-circuit:  the numeric tests are reached only
when the value is a number. -/
def invalidMaxChunkDifference (v : JsVal) : Bool :=
  !jsTypeofIsNumber v ||
    (match v with
     | .num n => jsNumLtZero n || jsIsNaN n
     | _ => false)

/-- Destructuring with a default, `const { maxChunkDifference = 1 } = options`:
the default applies exactly when the property is `undefined` (equivalently,
absent). -/
def withDefault (v dflt : JsVal) : JsVal :=
  if v = .undef then dflt else v

/-- The number held by a numeric value (meaningful only on `num`). -/
def numOf : JsVal → JsNum
  | .num n => n
  | _ => .nan

/-- The synchronous front matter of the configured tee variant
(src/unnamed/part_001, second document, the body of `tee` before the
transforms are built): the `instanceof ReadableStream` check, then the
destructuring of `maxChunkDifference` with default `1`, then the validity
guard, and finally the call `stream.tee()` producing the two raw branches.
`optMaxChunkDifference` is the value of the `maxChunkDifference` property of
the options object, with `undef` standing for an absent property (property
access on the options object cannot distinguish the two).  A returned
`.error` means the exception is thrown before `stream.tee()` is called and
before any chunk flows. -/
def teeFront (stream : JsVal) (optMaxChunkDifference : JsVal) :
    Except JsErr (JsNum × List String × List String) :=
  if !isReadableStream stream then
    .error (.typeError "Argument must be a ReadableStream")
  else
    let maxChunkDifference := withDefault optMaxChunkDifference (.num (.fin 1))
    if invalidMaxChunkDifference maxChunkDifference then
      .error (.typeError "maxChunkDifference must be a non-negative number")
    else
      .ok (numOf maxChunkDifference, streamChunks stream, streamChunks stream)

/-! ### The src/index.js variant: `const` chunk counters -/

/-- A JavaScript variable binding: its current value and whether it was
declared with `const`. -/
structure JsBinding where
  val : Nat
  isConst : Bool
deriving DecidableEq

/-- The statement `b++` on a binding: in strict mode (ES modules), assignment
to a `const` binding throws `TypeError: Assignment to constant variable.`. -/
def jsIncrement (b : JsBinding) : Except JsErr JsBinding :=
  if b.isConst then .error (.typeError "Assignment to constant variable.")
  else .ok { b with val := b.val + 1 }

/-- The outcome of draining one leg of the src/index.js variant: the stream
closes after emitting `out`, errors after emitting `out`, or hangs suspended
after emitting `out`. -/
inductive LegOutcome where
  | completed (out : List String)
  | errored (out : List String) (e : JsErr)
  | suspendedForever (out : List String)
deriving DecidableEq

/-- Draining one leg of the src/index.js variant.  Per chunk, the transform
first evaluates the suspend check `chunkCountOwn >= chunkCountOther +
MAX_CHUNK_DIFFERENCE` with `MAX_CHUNK_DIFFERENCE = 1`; in this variant no
counter can ever be incremented (both are `const`), so a suspension would
never be woken and the check itself is unreachable with both counters at 0.
Otherwise it executes `chunkCountOwn++`, which on a `const` binding throws
before `controller.enqueue(chunk)` runs, erroring the transform and hence the
output stream. -/
def runConstLeg : List String → JsBinding → JsBinding → LegOutcome
  | [], _, _ => .completed []
  | c :: rest, own, other =>
    if other.val + 1 ≤ own.val then .suspendedForever []
    else
      match jsIncrement own with
      | .error e => .errored [] e
      | .ok own2 =>
        match runConstLeg rest own2 other with
        | .completed out => .completed (c :: out)
        | .errored out e => .errored (c :: out) e
        | .suspendedForever out => .suspendedForever (c :: out)

/-- The src/index.js variant of `tee`: `instanceof ReadableStream` check,
`stream.tee()`, and both chunk counters declared `const` at 0.  The outer
`Except` is the synchronous call outcome; each `LegOutcome` is the behavior
of one returned stream when drained. -/
def teeConst (source : JsVal) : Except JsErr (LegOutcome × LegOutcome) :=
  if isReadableStream source then
    .ok (runConstLeg (streamChunks source) ⟨0, true⟩ ⟨0, true⟩,
         runConstLeg (streamChunks source) ⟨0, true⟩ ⟨0, true⟩)
  else .error (.typeError "Argument must be a ReadableStream")

/-! ### The trivial variant: native duplication -/

/-- The platform primitive `stream.tee()`: two independent branches, each
emitting the full source sequence, each independently drainable. -/
def nativeReadableStreamTee (S : List String) : List String × List String :=
  (S, S)

/-- The trivial tee variant (src/unnamed/part_001, third document): the
`instanceof ReadableStream` check followed by `return stream.tee()`. -/
def teeSimple (source : JsVal) : Except JsErr (List String × List String) :=
  if isReadableStream source then
    .ok (nativeReadableStreamTee (streamChunks source))
  else .error (.typeError "Argument must be a ReadableStream")

/-- Modelled from the spec: observational behavior of native duplication (the
platform duplication primitive, spec section 6) on the same inputs: reject a
non-stream with a `TypeError`, otherwise produce two outputs each emitting
exactly the source sequence with no coordination between them.  Used as the
specification side of the refinement claim about the trivial variant. -/
def nativeDuplicationSpec (source : JsVal) :
    Except JsErr (List String × List String) :=
  if isReadableStream source then
    .ok (streamChunks source, streamChunks source)
  else .error (.typeError "Argument must be a ReadableStream")

/-! ### The coordination protocol of the configured variant

The shared state of one call to the configured `tee`: the bound, the two
chunk counters, the two wake slots, and, per leg, the chunks not yet
forwarded by that transform stage (`rem`) and the chunks already forwarded
(`out`).  `resume` records a wake that has been invoked (slot cleared, the
awaited promise resolved) whose continuation has not yet run.  `canceled`
records that the branch was canceled, after which its transform stage runs no
further.  `nextId` and `resumedLog` are ghost instrumentation: each
registered wake callback gets a fresh identifier and every invocation of a
wake is logged. -/
structure TeeState (α : Type) where
  maxDiff : Nat
  count1 : Nat
  count2 : Nat
  out1 : List α
  out2 : List α
  rem1 : List α
  rem2 : List α
  waiting1 : Option Nat
  waiting2 : Option Nat
  resume1 : Bool
  resume2 : Bool
  canceled1 : Bool
  canceled2 : Bool
  nextId : Nat
  resumedLog : List Nat
deriving DecidableEq

/-- The tail of transform1 after any suspension: `chunkCount1++`,
`controller.enqueue(chunk)`, then `if (waiting2) waiting2()` — the wake
callback clears the slot (`waiting2 = null`) and resolves the sibling
promise, which marks leg 2 resumable.  Identity when no chunk is in flight
(never the case at a call site). -/
def forwardBody1 {α : Type} (s : TeeState α) : TeeState α :=
  match s.rem1 with
  | [] => s
  | c :: rest =>
    match s.waiting2 with
    | some i =>
        { s with count1 := s.count1 + 1, out1 := s.out1 ++ [c], rem1 := rest,
                 waiting2 := none, resume2 := true,
                 resumedLog := s.resumedLog ++ [i] }
    | none =>
        { s with count1 := s.count1 + 1, out1 := s.out1 ++ [c], rem1 := rest }

/-- The tail of transform2 after any suspension, symmetric to
`forwardBody1`. -/
def forwardBody2 {α : Type} (s : TeeState α) : TeeState α :=
  match s.rem2 with
  | [] => s
  | c :: rest =>
    match s.waiting1 with
    | some i =>
        { s with count2 := s.count2 + 1, out2 := s.out2 ++ [c], rem2 := rest,
                 waiting1 := none, resume1 := true,
                 resumedLog := s.resumedLog ++ [i] }
    | none =>
        { s with count2 := s.count2 + 1, out2 := s.out2 ++ [c], rem2 := rest }

/-- An invocation of transform1 with the next chunk of leg 1.  The stream
machinery invokes the transform only when the leg is live and its previous
transform call has completed, so the event is a no-op on a canceled leg, a
suspended leg, a leg with a pending resumption, or a leg with no remaining
chunk.  Otherwise the body runs the check
`if (chunkCount1 > chunkCount2 + maxChunkDifference)`: when it holds the leg
registers a wake callback in `waiting1` and suspends (the chunk stays in
flight); when it fails the body forwards directly. -/
def poll1 {α : Type} (s : TeeState α) : TeeState α :=
  if s.canceled1 then s
  else if s.waiting1.isSome then s
  else if s.resume1 then s
  else
    match s.rem1 with
    | [] => s
    | _ :: _ =>
      if s.count2 + s.maxDiff < s.count1 then
        { s with waiting1 := some s.nextId, nextId := s.nextId + 1 }
      else
        forwardBody1 s

/-- An invocation of transform2, symmetric to `poll1`. -/
def poll2 {α : Type} (s : TeeState α) : TeeState α :=
  if s.canceled2 then s
  else if s.waiting2.isSome then s
  else if s.resume2 then s
  else
    match s.rem2 with
    | [] => s
    | _ :: _ =>
      if s.count1 + s.maxDiff < s.count2 then
        { s with waiting2 := some s.nextId, nextId := s.nextId + 1 }
      else
        forwardBody2 s

/-- The continuation of a woken transform1 runs: the code after the `await`
is exactly the forward body.  No-op unless a resumption is pending. -/
def resumeStep1 {α : Type} (s : TeeState α) : TeeState α :=
  if s.canceled1 then s
  else if s.resume1 then forwardBody1 { s with resume1 := false }
  else s

/-- The continuation of a woken transform2 runs, symmetric to
`resumeStep1`. -/
def resumeStep2 {α : Type} (s : TeeState α) : TeeState α :=
  if s.canceled2 then s
  else if s.resume2 then forwardBody2 { s with resume2 := false }
  else s

/-- The scheduler events: a transform invocation on a leg, the resumption of
a woken transform, or the cancellation of a branch by its consumer.  The
source provides no cancel hook on the transforms, so cancellation changes no
shared coordination state; it only stops the canceled leg from running. -/
inductive Act where
  | poll1
  | poll2
  | res1
  | res2
  | cancel1
  | cancel2
deriving DecidableEq

/-- One scheduler event. -/
def step {α : Type} (a : Act) (s : TeeState α) : TeeState α :=
  match a with
  | .poll1 => poll1 s
  | .poll2 => poll2 s
  | .res1 => resumeStep1 s
  | .res2 => resumeStep2 s
  | .cancel1 => { s with canceled1 := true }
  | .cancel2 => { s with canceled2 := true }

/-- A finite execution: fold the schedule over the state. -/
def run {α : Type} (s : TeeState α) (sched : List Act) : TeeState α :=
  sched.foldl (fun t a => step a t) s

/-- The state of the configured variant immediately after construction with
bound `d` on a source emitting `S`: `stream.tee()` gives each leg the full
sequence `S` to forward, both counters are 0, no wake is registered. -/
def initState {α : Type} (d : Nat) (S : List α) : TeeState α :=
  { maxDiff := d, count1 := 0, count2 := 0, out1 := [], out2 := [],
    rem1 := S, rem2 := S, waiting1 := none, waiting2 := none,
    resume1 := false, resume2 := false, canceled1 := false,
    canceled2 := false, nextId := 0, resumedLog := [] }

/-- The state reached from construction with bound `d` and source `S` after
the schedule `sched`. -/
def reach {α : Type} (d : Nat) (S : List α) (sched : List Act) : TeeState α :=
  run (initState d S) sched

/-- The schedule that alternates one transform invocation on each leg,
`n` times. -/
def altSched : Nat → List Act
  | 0 => []
  | n + 1 => Act.poll1 :: Act.poll2 :: altSched n

/-- The schedule of the cancellation deadlock: leg 1 forwards one chunk, its
branch is canceled, then leg 2 is driven alone. -/
def cancelSched : List Act :=
  [Act.poll1, Act.cancel1, Act.poll2, Act.poll2, Act.poll2, Act.poll2]

/-- The invariant of the coordination protocol, relative to the configured
bound `d` and the source sequence `S`.  It packages: the bound is the
construction-time configuration; each leg forwards a prefix of `S` in order;
each counter counts the chunks forwarded on its leg; the counters never drift
apart by more than `d + 1`; a registered wake or pending resumption always
has a chunk in flight; a pending resumption has an already-cleared wake slot
and may forward without exceeding the drift bound; wake identifiers are
fresh, pending ones were never invoked, and no wake is ever invoked twice. -/
structure Inv {α : Type} (d : Nat) (S : List α) (s : TeeState α) : Prop where
  md : s.maxDiff = d
  a1 : s.out1 ++ s.rem1 = S
  a2 : s.out2 ++ s.rem2 = S
  c1 : s.count1 = s.out1.length
  c2 : s.count2 = s.out2.length
  b1 : s.count1 ≤ s.count2 + d + 1
  b2 : s.count2 ≤ s.count1 + d + 1
  w1 : s.waiting1.isSome → s.rem1 ≠ []
  w2 : s.waiting2.isSome → s.rem2 ≠ []
  r1 : s.resume1 = true → s.rem1 ≠ []
  r2 : s.resume2 = true → s.rem2 ≠ []
  x1 : s.resume1 = true → s.waiting1 = none
  x2 : s.resume2 = true → s.waiting2 = none
  m1 : s.resume1 = true → s.count1 ≤ s.count2 + d
  m2 : s.resume2 = true → s.count2 ≤ s.count1 + d
  f1 : ∀ i, s.waiting1 = some i → i < s.nextId ∧ i ∉ s.resumedLog
  f2 : ∀ i, s.waiting2 = some i → i < s.nextId ∧ i ∉ s.resumedLog
  fd : ∀ i j, s.waiting1 = some i → s.waiting2 = some j → i ≠ j
  lg : ∀ i ∈ s.resumedLog, i < s.nextId
  nd : s.resumedLog.Nodup

theorem run_nil {α : Type} (s : TeeState α) : run s [] = s := rfl

theorem run_cons {α : Type} (s : TeeState α) (a : Act) (l : List Act) :
    run s (a :: l) = run (step a s) l := rfl

theorem run_append {α : Type} (s : TeeState α) (l1 l2 : List Act) :
    run s (l1 ++ l2) = run (run s l1) l2 :=
  List.foldl_append _ _ _ _

theorem inv_initState {α : Type} (d : Nat) (S : List α) :
    Inv d S (initState d S) := by
  constructor <;> simp [initState]

theorem inv_forwardBody1 {α : Type} {d : Nat} {S : List α} {s : TeeState α}
    (h : Inv d S s) (hw : s.waiting1 = none) (hr : s.resume1 = false)
    (hc : s.count1 ≤ s.count2 + d) : Inv d S (forwardBody1 s) := by
  cases hrem : s.rem1 with
  | nil => simpa [forwardBody1, hrem] using h
  | cons c rest =>
    cases hw2 : s.waiting2 with
    | none =>
      have hfb : forwardBody1 s =
          { s with count1 := s.count1 + 1, out1 := s.out1 ++ [c],
                   rem1 := rest } := by
        simp [forwardBody1, hrem, hw2]
      rw [hfb]
      have ha1 := h.a1
      rw [hrem] at ha1
      exact {
        md := h.md
        a1 := by simpa [List.append_assoc] using ha1
        a2 := h.a2
        c1 := by simp [h.c1]
        c2 := h.c2
        b1 := by dsimp only; omega
        b2 := by have := h.b2; dsimp only; omega
        w1 := by simp [hw]
        w2 := fun hh => h.w2 hh
        r1 := by simp [hr]
        r2 := fun hh => h.r2 hh
        x1 := by simp [hr]
        x2 := fun hh => by simpa using h.x2 hh
        m1 := by simp [hr]
        m2 := fun hh => by have := h.m2 hh; dsimp only; omega
        f1 := by simp [hw]
        f2 := fun i hh => h.f2 i hh
        fd := by simp [hw]
        lg := h.lg
        nd := h.nd }
    | some i =>
      have hfb : forwardBody1 s =
          { s with count1 := s.count1 + 1, out1 := s.out1 ++ [c],
                   rem1 := rest, waiting2 := none, resume2 := true,
                   resumedLog := s.resumedLog ++ [i] } := by
        simp [forwardBody1, hrem, hw2]
      rw [hfb]
      have ha1 := h.a1
      rw [hrem] at ha1
      have hf2 := h.f2 i hw2
      exact {
        md := h.md
        a1 := by simpa [List.append_assoc] using ha1
        a2 := h.a2
        c1 := by simp [h.c1]
        c2 := h.c2
        b1 := by dsimp only; omega
        b2 := by have := h.b2; dsimp only; omega
        w1 := by simp [hw]
        w2 := by simp
        r1 := by simp [hr]
        r2 := fun _ => h.w2 (by simp [hw2])
        x1 := by simp [hr]
        x2 := fun _ => rfl
        m1 := by simp [hr]
        m2 := fun _ => by have := h.b2; dsimp only; omega
        f1 := by simp [hw]
        f2 := by simp
        fd := by simp [hw]
        lg := by
          intro j hj
          rcases List.mem_append.mp hj with hj | hj
          · exact h.lg j hj
          · simp at hj; subst hj; dsimp only; exact hf2.1
        nd := by
          simp only [List.nodup_append, List.nodup_singleton, true_and,
            List.disjoint_singleton]
          exact ⟨h.nd, hf2.2⟩ }

theorem inv_forwardBody2 {α : Type} {d : Nat} {S : List α} {s : TeeState α}
    (h : Inv d S s) (hw : s.waiting2 = none) (hr : s.resume2 = false)
    (hc : s.count2 ≤ s.count1 + d) : Inv d S (forwardBody2 s) := by
  cases hrem : s.rem2 with
  | nil => simpa [forwardBody2, hrem] using h
  | cons c rest =>
    cases hw1 : s.waiting1 with
    | none =>
      have hfb : forwardBody2 s =
          { s with count2 := s.count2 + 1, out2 := s.out2 ++ [c],
                   rem2 := rest } := by
        simp [forwardBody2, hrem, hw1]
      rw [hfb]
      have ha2 := h.a2
      rw [hrem] at ha2
      exact {
        md := h.md
        a1 := h.a1
        a2 := by simpa [List.append_assoc] using ha2
        c1 := h.c1
        c2 := by simp [h.c2]
        b1 := by have := h.b1; dsimp only; omega
        b2 := by dsimp only; omega
        w1 := fun hh => h.w1 hh
        w2 := by simp [hw]
        r1 := fun hh => h.r1 hh
        r2 := by simp [hr]
        x1 := fun hh => by simpa using h.x1 hh
        x2 := by simp [hr]
        m1 := fun hh => by have := h.m1 hh; dsimp only; omega
        m2 := by simp [hr]
        f1 := fun i hh => h.f1 i hh
        f2 := by simp [hw]
        fd := by simp [hw]
        lg := h.lg
        nd := h.nd }
    | some i =>
      have hfb : forwardBody2 s =
          { s with count2 := s.count2 + 1, out2 := s.out2 ++ [c],
                   rem2 := rest, waiting1 := none, resume1 := true,
                   resumedLog := s.resumedLog ++ [i] } := by
        simp [forwardBody2, hrem, hw1]
      rw [hfb]
      have ha2 := h.a2
      rw [hrem] at ha2
      have hf1 := h.f1 i hw1
      exact {
        md := h.md
        a1 := h.a1
        a2 := by simpa [List.append_assoc] using ha2
        c1 := h.c1
        c2 := by simp [h.c2]
        b1 := by have := h.b1; dsimp only; omega
        b2 := by dsimp only; omega
        w1 := by simp
        w2 := by simp [hw]
        r1 := fun _ => h.w1 (by simp [hw1])
        r2 := by simp [hr]
        x1 := fun _ => rfl
        x2 := by simp [hr]
        m1 := fun _ => by have := h.b1; dsimp only; omega
        m2 := by simp [hr]
        f1 := by simp
        f2 := by simp [hw]
        fd := by simp
        lg := by
          intro j hj
          rcases List.mem_append.mp hj with hj | hj
          · exact h.lg j hj
          · simp at hj; subst hj; dsimp only; exact hf1.1
        nd := by
          simp only [List.nodup_append, List.nodup_singleton, true_and,
            List.disjoint_singleton]
          exact ⟨h.nd, hf1.2⟩ }

theorem inv_poll1 {α : Type} {d : Nat} {S : List α} {s : TeeState α}
    (h : Inv d S s) : Inv d S (poll1 s) := by
  by_cases hc1 : s.canceled1 = true
  · simpa [poll1, hc1] using h
  by_cases hw1 : s.waiting1.isSome
  · simpa [poll1, hc1, hw1] using h
  by_cases hres : s.resume1 = true
  · simpa [poll1, hc1, hw1, hres] using h
  have hwn : s.waiting1 = none := Option.not_isSome_iff_eq_none.mp hw1
  have hrf : s.resume1 = false := by simpa using hres
  cases hrem : s.rem1 with
  | nil => simpa [poll1, hc1, hw1, hres, hrem] using h
  | cons c rest =>
    by_cases hchk : s.count2 + s.maxDiff < s.count1
    · have hp : poll1 s =
          { s with waiting1 := some s.nextId, nextId := s.nextId + 1 } := by
        simp [poll1, hc1, hw1, hres, hrem, hchk]
      rw [hp]
      exact {
        md := h.md
        a1 := h.a1
        a2 := h.a2
        c1 := h.c1
        c2 := h.c2
        b1 := h.b1
        b2 := h.b2
        w1 := fun _ => by dsimp only; rw [hrem]; simp
        w2 := fun hh => h.w2 hh
        r1 := by simp [hrf]
        r2 := fun hh => h.r2 hh
        x1 := by simp [hrf]
        x2 := fun hh => by simpa using h.x2 hh
        m1 := by simp [hrf]
        m2 := fun hh => h.m2 hh
        f1 := by
          intro i hi
          dsimp only at hi
          rw [Option.some_inj] at hi
          subst hi
          refine ⟨by dsimp only; omega, ?_⟩
          intro hmem
          exact absurd (h.lg _ hmem) (by omega)
        f2 := by
          intro i hi
          have := h.f2 i hi
          exact ⟨by dsimp only; omega, this.2⟩
        fd := by
          intro i j hi hj
          dsimp only at hi
          rw [Option.some_inj] at hi
          subst hi
          have := (h.f2 j hj).1
          omega
        lg := by
          intro i hi
          have := h.lg i hi
          dsimp only
          omega
        nd := h.nd }
    · have hp : poll1 s = forwardBody1 s := by
        simp [poll1, hc1, hw1, hres, hrem, hchk]
      rw [hp]
      refine inv_forwardBody1 h hwn hrf ?_
      have := h.md
      omega

theorem inv_poll2 {α : Type} {d : Nat} {S : List α} {s : TeeState α}
    (h : Inv d S s) : Inv d S (poll2 s) := by
  by_cases hc2 : s.canceled2 = true
  · simpa [poll2, hc2] using h
  by_cases hw2 : s.waiting2.isSome
  · simpa [poll2, hc2, hw2] using h
  by_cases hres : s.resume2 = true
  · simpa [poll2, hc2, hw2, hres] using h
  have hwn : s.waiting2 = none := Option.not_isSome_iff_eq_none.mp hw2
  have hrf : s.resume2 = false := by simpa using hres
  cases hrem : s.rem2 with
  | nil => simpa [poll2, hc2, hw2, hres, hrem] using h
  | cons c rest =>
    by_cases hchk : s.count1 + s.maxDiff < s.count2
    · have hp : poll2 s =
          { s with waiting2 := some s.nextId, nextId := s.nextId + 1 } := by
        simp [poll2, hc2, hw2, hres, hrem, hchk]
      rw [hp]
      exact {
        md := h.md
        a1 := h.a1
        a2 := h.a2
        c1 := h.c1
        c2 := h.c2
        b1 := h.b1
        b2 := h.b2
        w1 := fun hh => h.w1 hh
        w2 := fun _ => by dsimp only; rw [hrem]; simp
        r1 := fun hh => h.r1 hh
        r2 := by simp [hrf]
        x1 := fun hh => by simpa using h.x1 hh
        x2 := by simp [hrf]
        m1 := fun hh => h.m1 hh
        m2 := by simp [hrf]
        f1 := by
          intro i hi
          have := h.f1 i hi
          exact ⟨by dsimp only; omega, this.2⟩
        f2 := by
          intro i hi
          dsimp only at hi
          rw [Option.some_inj] at hi
          subst hi
          refine ⟨by dsimp only; omega, ?_⟩
          intro hmem
          exact absurd (h.lg _ hmem) (by omega)
        fd := by
          intro i j hi hj
          dsimp only at hj
          rw [Option.some_inj] at hj
          subst hj
          have := (h.f1 i hi).1
          omega
        lg := by
          intro i hi
          have := h.lg i hi
          dsimp only
          omega
        nd := h.nd }
    · have hp : poll2 s = forwardBody2 s := by
        simp [poll2, hc2, hw2, hres, hrem, hchk]
      rw [hp]
      refine inv_forwardBody2 h hwn hrf ?_
      have := h.md
      omega

theorem inv_resumeStep1 {α : Type} {d : Nat} {S : List α} {s : TeeState α}
    (h : Inv d S s) : Inv d S (resumeStep1 s) := by
  by_cases hc1 : s.canceled1 = true
  · simpa [resumeStep1, hc1] using h
  by_cases hres : s.resume1 = true
  · have hp : resumeStep1 s = forwardBody1 { s with resume1 := false } := by
      simp [resumeStep1, hc1, hres]
    rw [hp]
    have h' : Inv d S { s with resume1 := false } :=
      { md := h.md, a1 := h.a1, a2 := h.a2, c1 := h.c1, c2 := h.c2,
        b1 := h.b1, b2 := h.b2, w1 := fun hh => h.w1 hh,
        w2 := fun hh => h.w2 hh, r1 := by simp, r2 := fun hh => h.r2 hh,
        x1 := by simp, x2 := fun hh => by simpa using h.x2 hh,
        m1 := by simp, m2 := fun hh => h.m2 hh,
        f1 := fun i hi => h.f1 i hi, f2 := fun i hi => h.f2 i hi,
        fd := fun i j hi hj => h.fd i j hi hj, lg := h.lg, nd := h.nd }
    exact inv_forwardBody1 h' (h.x1 hres) rfl (h.m1 hres)
  · simpa [resumeStep1, hc1, hres] using h

theorem inv_resumeStep2 {α : Type} {d : Nat} {S : List α} {s : TeeState α}
    (h : Inv d S s) : Inv d S (resumeStep2 s) := by
  by_cases hc2 : s.canceled2 = true
  · simpa [resumeStep2, hc2] using h
  by_cases hres : s.resume2 = true
  · have hp : resumeStep2 s = forwardBody2 { s with resume2 := false } := by
      simp [resumeStep2, hc2, hres]
    rw [hp]
    have h' : Inv d S { s with resume2 := false } :=
      { md := h.md, a1 := h.a1, a2 := h.a2, c1 := h.c1, c2 := h.c2,
        b1 := h.b1, b2 := h.b2, w1 := fun hh => h.w1 hh,
        w2 := fun hh => h.w2 hh, r1 := fun hh => h.r1 hh, r2 := by simp,
        x1 := fun hh => by simpa using h.x1 hh, x2 := by simp,
        m1 := fun hh => h.m1 hh, m2 := by simp,
        f1 := fun i hi => h.f1 i hi, f2 := fun i hi => h.f2 i hi,
        fd := fun i j hi hj => h.fd i j hi hj, lg := h.lg, nd := h.nd }
    exact inv_forwardBody2 h' (h.x2 hres) rfl (h.m2 hres)
  · simpa [resumeStep2, hc2, hres] using h

theorem inv_step {α : Type} {d : Nat} {S : List α} {s : TeeState α}
    (h : Inv d S s) (a : Act) : Inv d S (step a s) := by
  cases a with
  | poll1 => exact inv_poll1 h
  | poll2 => exact inv_poll2 h
  | res1 => exact inv_resumeStep1 h
  | res2 => exact inv_resumeStep2 h
  | cancel1 =>
    exact ⟨h.md, h.a1, h.a2, h.c1, h.c2, h.b1, h.b2, h.w1, h.w2, h.r1, h.r2,
      h.x1, h.x2, h.m1, h.m2, h.f1, h.f2, h.fd, h.lg, h.nd⟩
  | cancel2 =>
    exact ⟨h.md, h.a1, h.a2, h.c1, h.c2, h.b1, h.b2, h.w1, h.w2, h.r1, h.r2,
      h.x1, h.x2, h.m1, h.m2, h.f1, h.f2, h.fd, h.lg, h.nd⟩

theorem inv_run {α : Type} {d : Nat} {S : List α} {s : TeeState α}
    (h : Inv d S s) (sched : List Act) : Inv d S (run s sched) := by
  induction sched generalizing s with
  | nil => exact h
  | cons a l ih => exact ih (inv_step h a)

theorem inv_reach {α : Type} (d : Nat) (S : List α) (sched : List Act) :
    Inv d S (reach d S sched) :=
  inv_run (inv_initState d S) sched

theorem run_altSched {α : Type} (d : Nat) :
    ∀ (Q out : List α) (n nid : Nat) (log : List Nat),
      run (TeeState.mk d n n out out Q Q none none false false false false
          nid log) (altSched Q.length) =
        TeeState.mk d (n + Q.length) (n + Q.length) (out ++ Q) (out ++ Q)
          [] [] none none false false false false nid log := by
  intro Q
  induction Q with
  | nil =>
    intro out n nid log
    simp [altSched, run_nil]
  | cons c rest ih =>
    intro out n nid log
    have hn1 : ¬ (n + d < n) := by omega
    have hn2 : ¬ ((n + 1) + d < n) := by omega
    have h1 : step Act.poll1
        (TeeState.mk d n n out out (c :: rest) (c :: rest) none none
          false false false false nid log) =
        TeeState.mk d (n + 1) n (out ++ [c]) out rest (c :: rest) none none
          false false false false nid log := by
      simp [step, poll1, forwardBody1, hn1]
    have h2 : step Act.poll2
        (TeeState.mk d (n + 1) n (out ++ [c]) out rest (c :: rest) none none
          false false false false nid log) =
        TeeState.mk d (n + 1) (n + 1) (out ++ [c]) (out ++ [c]) rest rest
          none none false false false false nid log := by
      simp [step, poll2, forwardBody2, hn2]
    have hsched : altSched (c :: rest).length =
        Act.poll1 :: Act.poll2 :: altSched rest.length := rfl
    rw [hsched, run_cons, h1, run_cons, h2, ih]
    simp [List.append_assoc]
    omega

/-- In a state where leg 1 is canceled and leg 2 holds a registered wake with
no pending resumption, no scheduler event can change leg 2: the wake can only
be invoked by a forward step of leg 1, which never runs again. -/
theorem step_stuck {α : Type} {s : TeeState α} (a : Act)
    (hc : s.canceled1 = true) (hw : s.waiting2.isSome)
    (hr : s.resume2 = false) :
    (step a s).canceled1 = true ∧ (step a s).waiting2 = s.waiting2 ∧
      (step a s).resume2 = false ∧ (step a s).rem2 = s.rem2 ∧
      (step a s).out2 = s.out2 := by
  cases a with
  | poll1 => simp [step, poll1, hc, hr]
  | poll2 => simp [step, poll2, hw, hc, hr]
  | res1 => simp [step, resumeStep1, hc, hr]
  | res2 =>
    by_cases hc2 : s.canceled2 = true
    · simp [step, resumeStep2, hc2, hc, hr]
    · simp [step, resumeStep2, hc2, hr, hc]
  | cancel1 => simp [step, hc, hr]
  | cancel2 => simp [step, hc, hr]

/-- Iterating `step_stuck` over any schedule. -/
theorem run_stuck {α : Type} {s : TeeState α} (sched : List Act)
    (hc : s.canceled1 = true) (hw : s.waiting2.isSome)
    (hr : s.resume2 = false) :
    (run s sched).waiting2 = s.waiting2 ∧ (run s sched).rem2 = s.rem2 ∧
      (run s sched).out2 = s.out2 := by
  induction sched generalizing s with
  | nil => exact ⟨rfl, rfl, rfl⟩
  | cons a l ih =>
    obtain ⟨k1, k2, k3, k4, k5⟩ := step_stuck a hc hw hr
    rw [run_cons]
    obtain ⟨j1, j2, j3⟩ := ih k1 (by rw [k2]; exact hw) k3
    exact ⟨by rw [j1, k2], by rw [j2, k4], by rw [j3, k5]⟩

theorem forwardBody1_out {α : Type} (s : TeeState α) (c : α) (rest : List α)
    (hrem : s.rem1 = c :: rest) :
    (forwardBody1 s).out1 = s.out1 ++ [c] ∧
      (forwardBody1 s).count1 = s.count1 + 1 ∧
      (forwardBody1 s).waiting1 = s.waiting1 ∧
      (forwardBody1 s).rem1 = rest := by
  cases hw : s.waiting2 <;> simp [forwardBody1, hrem, hw]

/-- Characterization of one transform1 invocation on a live leg with a chunk
available: the body suspends exactly when the strict check
`chunkCount1 > chunkCount2 + maxChunkDifference` holds, leaving the chunk in
flight; otherwise it forwards the chunk at once. -/
theorem poll1_characterization {α : Type} (s : TeeState α)
    (h1 : s.rem1 ≠ []) (h2 : s.waiting1 = none) (h3 : s.resume1 = false)
    (h4 : s.canceled1 = false) :
    ((poll1 s).waiting1.isSome ↔ s.count2 + s.maxDiff < s.count1) ∧
    (s.count2 + s.maxDiff < s.count1 →
      (poll1 s).out1 = s.out1 ∧ (poll1 s).count1 = s.count1 ∧
      (poll1 s).rem1 = s.rem1 ∧ (poll1 s).waiting1 = some s.nextId) ∧
    (s.count1 ≤ s.count2 + s.maxDiff →
      (poll1 s).waiting1 = none ∧ (poll1 s).count1 = s.count1 + 1 ∧
      (poll1 s).out1 = s.out1 ++ s.rem1.take 1) := by
  cases hrem : s.rem1 with
  | nil => exact absurd hrem h1
  | cons c rest =>
    by_cases hchk : s.count2 + s.maxDiff < s.count1
    · have hp : poll1 s =
          { s with waiting1 := some s.nextId, nextId := s.nextId + 1 } := by
        simp [poll1, h4, h2, h3, hrem, hchk]
      refine ⟨?_, fun _ => ?_, fun hle => absurd hchk (by omega)⟩
      · rw [hp]; simp [hchk]
      · rw [hp]; exact ⟨rfl, rfl, hrem, rfl⟩
    · have hp : poll1 s = forwardBody1 s := by
        simp [poll1, h4, h2, h3, hrem, hchk]
      obtain ⟨o1, o2, o3, o4⟩ := forwardBody1_out s c rest hrem
      refine ⟨?_, fun hgt => absurd hgt hchk, fun _ => ?_⟩
      · rw [hp, o3, h2]; simp [hchk]
      · refine ⟨?_, ?_, ?_⟩
        · rw [hp, o3, h2]
        · rw [hp]; exact o2
        · rw [hp, o1]; simp

theorem reach_altSched {α : Type} (d : Nat) (S : List α) :
    reach d S (altSched S.length) =
      TeeState.mk d S.length S.length S S [] [] none none false false false
        false 0 [] := by
  have h := run_altSched d S ([] : List α) 0 0 []
  have h0 : initState d S =
      TeeState.mk d 0 0 ([] : List α) [] S S none none false false false
        false 0 [] := rfl
  rw [reach, h0, h]
  simp

/-! ### The claims -/

/-- C1: for every item sequence S emitted by the source and every
non-negative d, teeing with maxChunkDifference = d and draining both outputs
yields two outputs each equal to S in content and order, with the same
(normal) completion outcome as the source: under every schedule each leg
forwards a prefix of S in order, so a fully drained leg has output exactly S;
and the alternating schedule drains both legs completely, leaving no pending
suspension, for every d and S. -/
theorem C1_both_outputs_equal_source {α : Type} (d : Nat) (S : List α)
    (sched : List Act) :
    ((reach d S sched).rem1 = [] → (reach d S sched).out1 = S) ∧
    ((reach d S sched).rem2 = [] → (reach d S sched).out2 = S) ∧
    (reach d S (altSched S.length)).out1 = S ∧
    (reach d S (altSched S.length)).out2 = S ∧
    (reach d S (altSched S.length)).rem1 = [] ∧
    (reach d S (altSched S.length)).rem2 = [] ∧
    (reach d S (altSched S.length)).waiting1 = none ∧
    (reach d S (altSched S.length)).waiting2 = none := by
  have hi := inv_reach d S sched
  have hd := reach_altSched d S
  refine ⟨fun hr => ?_, fun hr => ?_, ?_, ?_, ?_, ?_, ?_, ?_⟩
  · have := hi.a1
    rw [hr] at this
    simpa using this
  · have := hi.a2
    rw [hr] at this
    simpa using this
  · rw [hd]
  · rw [hd]
  · rw [hd]
  · rw [hd]
  · rw [hd]
  · rw [hd]

theorem C1_both_outputs_equal_source_witness :
    (reach 1 (["a"] : List String) [Act.poll1, Act.poll2]).out1 = ["a"] :=
  (C1_both_outputs_equal_source 1 ["a"] [Act.poll1, Act.poll2]).1 (by decide)

/-- C3 counterexample: with maxChunkDifference = 0, after a single completed
forward step on leg 1 the counters read count1 = 1, count2 = 0, so
|count1 - count2| = 1 exceeds the configured bound 0.  This refutes the claim
that the difference never exceeds d: the suspend check is strict and runs
before the increment, so a lead of d + 1 is reachable. -/
theorem C3_cex_drift_exceeds_d :
    (reach 0 (["a"] : List String) [Act.poll1]).maxDiff = 0 ∧
    (reach 0 (["a"] : List String) [Act.poll1]).count1 = 1 ∧
    (reach 0 (["a"] : List String) [Act.poll1]).count2 = 0 ∧
    (reach 0 (["a"] : List String) [Act.poll1]).count2 +
        (reach 0 (["a"] : List String) [Act.poll1]).maxDiff <
      (reach 0 (["a"] : List String) [Act.poll1]).count1 := by
  decide

/-- C3 (amended): for every non-negative d and every execution, when observed
between completed forward steps, the absolute difference between the two
forwarded-item counters never exceeds d + 1 (the configured
maxChunkDifference plus one); the bound d itself is exceeded by exactly one
because the strict suspend check runs before the counter increment. -/
theorem C3_drift_at_most_d_plus_one {α : Type} (d : Nat) (S : List α)
    (sched : List Act) :
    (reach d S sched).maxDiff = d ∧
    (reach d S sched).count1 ≤ (reach d S sched).count2 + d + 1 ∧
    (reach d S sched).count2 ≤ (reach d S sched).count1 + d + 1 :=
  ⟨(inv_reach d S sched).md, (inv_reach d S sched).b1,
    (inv_reach d S sched).b2⟩

/-- C4 counterexample: in the initial state with maxChunkDifference = 0 the
claimed policy countX >= countY + maxDifference holds (0 >= 0 + 0), yet the
leg does not suspend: one transform invocation forwards the chunk
immediately, registering no wake.  The check actually enforced is the strict
countX > countY + maxDifference. -/
theorem C4_cex_geq_policy_not_enforced :
    (initState 0 (["a"] : List String)).count2 +
        (initState 0 (["a"] : List String)).maxDiff ≤
      (initState 0 (["a"] : List String)).count1 ∧
    (reach 0 (["a"] : List String) [Act.poll1]).waiting1 = none ∧
    (reach 0 (["a"] : List String) [Act.poll1]).out1 = ["a"] ∧
    (reach 0 (["a"] : List String) [Act.poll1]).count1 = 1 := by
  decide

/-- C4 (amended): on receiving an item, leg X suspends (registers a wake
callback and neither forwards the item nor advances countX) precisely when
countX > countY + maxDifference holds strictly at that moment, with
maxDifference fixed at construction; when countX <= countY + maxDifference
it forwards immediately. -/
theorem C4_suspend_iff_strict_gt {α : Type} (d : Nat) (S : List α)
    (sched : List Act)
    (h1 : (reach d S sched).rem1 ≠ [])
    (h2 : (reach d S sched).waiting1 = none)
    (h3 : (reach d S sched).resume1 = false)
    (h4 : (reach d S sched).canceled1 = false) :
    ((step Act.poll1 (reach d S sched)).waiting1.isSome ↔
        (reach d S sched).count2 + d < (reach d S sched).count1) ∧
    ((reach d S sched).count2 + d < (reach d S sched).count1 →
        (step Act.poll1 (reach d S sched)).out1 = (reach d S sched).out1 ∧
        (step Act.poll1 (reach d S sched)).count1 =
          (reach d S sched).count1 ∧
        (step Act.poll1 (reach d S sched)).rem1 = (reach d S sched).rem1 ∧
        (step Act.poll1 (reach d S sched)).waiting1 =
          some (reach d S sched).nextId) ∧
    ((reach d S sched).count1 ≤ (reach d S sched).count2 + d →
        (step Act.poll1 (reach d S sched)).waiting1 = none ∧
        (step Act.poll1 (reach d S sched)).count1 =
          (reach d S sched).count1 + 1 ∧
        (step Act.poll1 (reach d S sched)).out1 =
          (reach d S sched).out1 ++ (reach d S sched).rem1.take 1) := by
  have hmd := (inv_reach d S sched).md
  have hchar := poll1_characterization (reach d S sched) h1 h2 h3 h4
  rw [hmd] at hchar
  exact hchar

theorem C4_suspend_iff_strict_gt_witness :
    (step Act.poll1 (reach 0 (["a"] : List String) [])).count1 =
      (reach 0 (["a"] : List String) []).count1 + 1 ∧
    (step Act.poll1 (reach 0 (["a"] : List String) [])).out1 =
      (reach 0 (["a"] : List String) []).out1 ++
        (reach 0 (["a"] : List String) []).rem1.take 1 :=
  ⟨((C4_suspend_iff_strict_gt 0 ["a"] [] (by decide) (by decide) (by decide)
      (by decide)).2.2 (by decide)).2.1,
   ((C4_suspend_iff_strict_gt 0 ["a"] [] (by decide) (by decide) (by decide)
      (by decide)).2.2 (by decide)).2.2⟩

/-- C5 (code bug): the claim demands that a leg suspended on its sibling is
released when the sibling is canceled mid-stream.  The code registers no
cancel hook and invokes a pending wake only inside the sibling transform, so
after leg 1 forwards "a" and is canceled on the source
["a","b","c","d"] with maxChunkDifference = 1, leg 2 forwards "a","b","c",
suspends before "d", and no continuation of any schedule ever delivers "d"
or closes leg 2.  The concrete three-chunk instance quoted in the claim does
complete, because the off-by-one in the strict check lets leg 2 run two
chunks ahead; one more chunk exposes the permanent deadlock. -/
theorem C5_sibling_cancel_leaves_leg_suspended :
    (reach 1 (["a","b","c","d"] : List String) cancelSched).out2 =
      ["a","b","c"] ∧
    (reach 1 (["a","b","c","d"] : List String) cancelSched).waiting2 =
      some 0 ∧
    (reach 1 (["a","b","c","d"] : List String) cancelSched).rem2 = ["d"] ∧
    (∀ more : List Act,
      (run (reach 1 (["a","b","c","d"] : List String) cancelSched)
          more).rem2 = ["d"] ∧
      (run (reach 1 (["a","b","c","d"] : List String) cancelSched)
          more).out2 = ["a","b","c"]) ∧
    (run (initState 1 (["a","b","c"] : List String))
        [Act.poll1, Act.cancel1, Act.poll2, Act.poll2, Act.poll2]).out2 =
      ["a","b","c"] ∧
    (run (initState 1 (["a","b","c"] : List String))
        [Act.poll1, Act.cancel1, Act.poll2, Act.poll2, Act.poll2]).rem2 =
      [] := by
  refine ⟨by decide, by decide, by decide, fun more => ?_, by decide,
    by decide⟩
  have hc : (reach 1 (["a","b","c","d"] : List String)
      cancelSched).canceled1 = true := by decide
  have hw : (reach 1 (["a","b","c","d"] : List String)
      cancelSched).waiting2.isSome := by decide
  have hr : (reach 1 (["a","b","c","d"] : List String)
      cancelSched).resume2 = false := by decide
  obtain ⟨j1, j2, j3⟩ := run_stuck more hc hw hr
  exact ⟨by rw [j2]; decide, by rw [j3]; decide⟩

/-- C2: in the variant src/index.js the chunk counters are declared const yet
incremented inside every transform step, so on any source emitting at least
one item the first forwarding step of each leg throws a TypeError before
enqueuing anything: both returned streams error having emitted no items, and
only an empty source completes normally on both legs. -/
theorem C2_const_counters_typeError (S : List String) (h : S ≠ []) :
    teeConst (.readableStream S) =
      .ok (.errored [] (.typeError "Assignment to constant variable."),
           .errored [] (.typeError "Assignment to constant variable.")) ∧
    teeConst (.readableStream []) = .ok (.completed [], .completed []) := by
  cases S with
  | nil => exact absurd rfl h
  | cons c rest => exact ⟨rfl, rfl⟩

theorem C2_const_counters_typeError_witness :
    (["a"] : List String) ≠ [] ∧
    teeConst (.readableStream ["a"]) =
      .ok (.errored [] (.typeError "Assignment to constant variable."),
           .errored [] (.typeError "Assignment to constant variable.")) :=
  ⟨by decide, (C2_const_counters_typeError ["a"] (by decide)).1⟩

theorem teeFront_stream_undef (S : List String) :
    teeFront (.readableStream S) .undef = .ok (.fin 1, S, S) := rfl

theorem teeFront_stream_num (S : List String) (n : JsNum) :
    teeFront (.readableStream S) (.num n) =
      if jsNumLtZero n || jsIsNaN n then
        .error (.typeError "maxChunkDifference must be a non-negative number")
      else .ok (n, S, S) := by
  simp [teeFront, withDefault, invalidMaxChunkDifference, jsTypeofIsNumber,
    isReadableStream, numOf, streamChunks]

theorem teeFront_stream_nonnum (S : List String) (v : JsVal)
    (hnum : jsTypeofIsNumber v = false) (hu : v ≠ .undef) :
    teeFront (.readableStream S) v =
      .error (.typeError "maxChunkDifference must be a non-negative number")
    := by
  simp [teeFront, withDefault, invalidMaxChunkDifference, hnum, hu,
    isReadableStream]

/-- C6: when the options object supplies maxChunkDifference (any value other
than undefined, which destructuring treats as omitted), tee throws a
TypeError synchronously, before stream.tee() is called and before any item
flows, exactly when the value is not a number, is NaN, or is negative
(including negative infinity); every non-negative finite number and positive
Infinity are accepted; and when the option is omitted the bound defaults
to 1. -/
theorem C6_maxChunkDifference_validation (v : JsVal) (S : List String) :
    (teeFront (.readableStream S) v =
        .error (.typeError
          "maxChunkDifference must be a non-negative number") ↔
      v ≠ .undef ∧ (jsTypeofIsNumber v = false ∨ v = .num .nan ∨
        v = .num .negInf ∨ ∃ q : ℚ, q < 0 ∧ v = .num (.fin q))) ∧
    teeFront (.readableStream S) .undef = .ok (.fin 1, S, S) ∧
    (∀ q : ℚ, 0 ≤ q →
        teeFront (.readableStream S) (.num (.fin q)) = .ok (.fin q, S, S)) ∧
    teeFront (.readableStream S) (.num .posInf) = .ok (.posInf, S, S) := by
  refine ⟨?_, rfl, fun q hq => ?_, rfl⟩
  · cases v with
    | num n =>
      rw [teeFront_stream_num]
      cases n with
      | nan => simp [jsNumLtZero, jsIsNaN, jsTypeofIsNumber]
      | posInf => simp [jsNumLtZero, jsIsNaN, jsTypeofIsNumber]
      | negInf => simp [jsNumLtZero, jsIsNaN, jsTypeofIsNumber]
      | fin q =>
        by_cases hq : q < 0
        · simp [jsNumLtZero, jsIsNaN, jsTypeofIsNumber, hq]
        · simp [jsNumLtZero, jsIsNaN, jsTypeofIsNumber, hq]
    | str s => rw [teeFront_stream_nonnum S (.str s) (by simp [jsTypeofIsNumber]) (by simp)]; simp [jsTypeofIsNumber]
    | boolean b =>
      rw [teeFront_stream_nonnum S (.boolean b) (by simp [jsTypeofIsNumber]) (by simp)]; simp [jsTypeofIsNumber]
    | plainObject =>
      rw [teeFront_stream_nonnum S .plainObject (by simp [jsTypeofIsNumber]) (by simp)]; simp [jsTypeofIsNumber]
    | jsNull => rw [teeFront_stream_nonnum S .jsNull (by simp [jsTypeofIsNumber]) (by simp)]; simp [jsTypeofIsNumber]
    | undef => rw [teeFront_stream_undef]; simp
    | readableStream cs =>
      rw [teeFront_stream_nonnum S (.readableStream cs) (by simp [jsTypeofIsNumber]) (by simp)]; simp [jsTypeofIsNumber]
  · rw [teeFront_stream_num]
    have hz : ¬ q < 0 := not_lt.mpr hq
    simp [jsNumLtZero, jsIsNaN, jsTypeofIsNumber, hz]

theorem C6_maxChunkDifference_validation_witness :
    (0 : ℚ) ≤ 3 ∧
    teeFront (.readableStream ["x"]) (.num (.fin 3)) =
      .ok (.fin 3, ["x"], ["x"]) :=
  ⟨by norm_num,
    (C6_maxChunkDifference_validation (.num (.fin 3)) ["x"]).2.2.1 3
      (by norm_num)⟩

/-- C7: every argument that is not a ReadableStream makes each tee variant
throw a TypeError synchronously at call time: the instanceof check is the
first statement, so the error is raised before stream.tee() would produce
the duplication outputs and before any item is read. -/
theorem C7_nonstream_typeError (v opt : JsVal)
    (hv : isReadableStream v = false) :
    teeFront v opt = .error (.typeError "Argument must be a ReadableStream") ∧
    teeConst v = .error (.typeError "Argument must be a ReadableStream") ∧
    teeSimple v = .error (.typeError "Argument must be a ReadableStream") :=
  ⟨by simp [teeFront, hv], by simp [teeConst, hv], by simp [teeSimple, hv]⟩

theorem C7_nonstream_typeError_witness :
    isReadableStream (JsVal.str "not a stream") = false ∧
    teeFront (.str "not a stream") .undef =
      .error (.typeError "Argument must be a ReadableStream") ∧
    teeConst JsVal.jsNull =
      .error (.typeError "Argument must be a ReadableStream") :=
  ⟨rfl, (C7_nonstream_typeError (.str "not a stream") .undef rfl).1,
    (C7_nonstream_typeError .jsNull .undef rfl).2.1⟩

/-- C8: with maxChunkDifference = 0 the outputs advance in lockstep: a
transform invocation of leg 1 for its next item (item number count1 + 1)
forwards exactly when count2 >= count1, that is when leg 2 has already read
the previous item; when leg 2 lags the invocation completes no read and
suspends instead; and draining both legs concurrently (alternating schedule)
still yields the full source sequence on both. -/
theorem C8_lockstep_at_zero {α : Type} (S : List α) (sched : List Act)
    (h1 : (reach 0 S sched).rem1 ≠ [])
    (h2 : (reach 0 S sched).waiting1 = none)
    (h3 : (reach 0 S sched).resume1 = false)
    (h4 : (reach 0 S sched).canceled1 = false) :
    ((step Act.poll1 (reach 0 S sched)).out1 =
        (reach 0 S sched).out1 ++ (reach 0 S sched).rem1.take 1 ↔
      (reach 0 S sched).count1 ≤ (reach 0 S sched).count2) ∧
    ((reach 0 S sched).count2 < (reach 0 S sched).count1 →
      (step Act.poll1 (reach 0 S sched)).out1 = (reach 0 S sched).out1 ∧
      (step Act.poll1 (reach 0 S sched)).waiting1.isSome) ∧
    (reach 0 S (altSched S.length)).out1 = S ∧
    (reach 0 S (altSched S.length)).out2 = S ∧
    (reach 0 S (altSched S.length)).rem1 = [] ∧
    (reach 0 S (altSched S.length)).rem2 = [] := by
  have hmd := (inv_reach 0 S sched).md
  have hchar := poll1_characterization (reach 0 S sched) h1 h2 h3 h4
  rw [hmd] at hchar
  simp only [Nat.add_zero] at hchar
  obtain ⟨hiff, hsusp, hfwd⟩ := hchar
  have hstep : step Act.poll1 (reach 0 S sched) = poll1 (reach 0 S sched) :=
    rfl
  have hd := reach_altSched 0 S
  refine ⟨?_, fun hlt => ?_, by rw [hd], by rw [hd], by rw [hd], by rw [hd]⟩
  · constructor
    · intro hout
      by_contra hnot
      have hlt : (reach 0 S sched).count2 < (reach 0 S sched).count1 := by
        omega
      obtain ⟨e1, e2, e3, e4⟩ := hsusp hlt
      rw [hstep, e1] at hout
      cases hrem : (reach 0 S sched).rem1 with
      | nil => exact h1 hrem
      | cons c rest =>
        rw [hrem] at hout
        simp at hout
    · intro hle
      rw [hstep]
      exact (hfwd hle).2.2
  · obtain ⟨e1, e2, e3, e4⟩ := hsusp hlt
    rw [hstep]
    exact ⟨e1, by rw [e4]; rfl⟩

theorem C8_lockstep_at_zero_witness :
    (step Act.poll1 (reach 0 (["a","b"] : List String) [Act.poll1])).out1 =
      (reach 0 (["a","b"] : List String) [Act.poll1]).out1 ∧
    (step Act.poll1
      (reach 0 (["a","b"] : List String) [Act.poll1])).waiting1.isSome :=
  (C8_lockstep_at_zero ["a","b"] [Act.poll1] (by decide) (by decide)
    (by decide) (by decide)).2.1 (by decide)

/-- C9: each wake slot holds at most one pending callback, a pending callback
has never been invoked, invoking a wake clears the slot before the suspended
step resumes (a pending or running resumption always sees its own slot
empty), the identifiers held by the two slots are distinct, and the ghost log
of invoked wakes never contains a duplicate: every suspension is resumed at
most once and no stale callback fires twice. -/
theorem C9_wake_slot_single_use {α : Type} (d : Nat) (S : List α)
    (sched : List Act) :
    (reach d S sched).resumedLog.Nodup ∧
    (∀ i, (reach d S sched).waiting1 = some i →
      i ∉ (reach d S sched).resumedLog) ∧
    (∀ i, (reach d S sched).waiting2 = some i →
      i ∉ (reach d S sched).resumedLog) ∧
    ((reach d S sched).resume1 = true →
      (reach d S sched).waiting1 = none) ∧
    ((reach d S sched).resume2 = true →
      (reach d S sched).waiting2 = none) ∧
    (∀ i j, (reach d S sched).waiting1 = some i →
      (reach d S sched).waiting2 = some j → i ≠ j) := by
  have hi := inv_reach d S sched
  exact ⟨hi.nd, fun i hh => (hi.f1 i hh).2, fun i hh => (hi.f2 i hh).2,
    hi.x1, hi.x2, hi.fd⟩

theorem C9_wake_slot_single_use_witness :
    (0 : Nat) ∉
      (reach 0 (["a","b"] : List String)
        [Act.poll1, Act.poll1]).resumedLog :=
  (C9_wake_slot_single_use 0 ["a","b"] [Act.poll1, Act.poll1]).2.1 0
    (by decide)

/-- C10: the trivial tee variant performs only the ReadableStream check and
returns the platform primitive outputs unchanged, so it is observationally
equivalent to native duplication: on every input it agrees with the
spec-modelled native behavior, and on a stream each output is the full
source sequence regardless of how the other leg is consumed — there is no
coordination state, no lead bound, and no suspension of either leg. -/
theorem C10_trivial_variant_is_native_tee (v : JsVal) :
    teeSimple v = nativeDuplicationSpec v ∧
    (∀ S : List String, teeSimple (.readableStream S) = .ok (S, S)) := by
  refine ⟨?_, fun S => rfl⟩
  cases v <;> rfl

end SafeTee
